import Mathlib

/-! Shallow embedding of the nebraska-sale-barn-app normalization and
fallback-aggregation core: the source adapters and helpers of
src/lib/api/usda-market-news.ts and src/lib/api/usda-nass.ts, the
sale-barn catalog of src/lib/sale-barns.ts, and the per-domain fallback
aggregators of the API route handlers. JavaScript strings are modelled
through their character lists, JavaScript numbers as rationals, and the
loosely typed upstream JSON payloads as a JSON value tree; a fetch that
fails, returns a non-2xx status or delivers a malformed JSON body is
modelled as the adapter receiving no value, matching the catch-to-null
behaviour of the fetchUSDA wrapper. -/

/-- Whitespace class used by the JavaScript trim and whitespace-run
splitting that the text report parsing relies on. -/
def jsWhitespace (c : Char) : Bool :=
  c == ' ' || c == '\t' || c == '\n' || c == '\r' || c == '\x0b' || c == '\x0c'

/-- Decimal digits taken greedily from the front of a character list,
with the unconsumed remainder. -/
def takeDigits : List Char → List Nat × List Char
  | [] => ([], [])
  | c :: cs =>
    if c.isDigit then
      let r := takeDigits cs
      ((c.toNat - 48) :: r.1, r.2)
    else ([], c :: cs)

/-- Value of a list of decimal digits read left to right. -/
def digitsVal (ds : List Nat) : Nat := ds.foldl (fun a d => a * 10 + d) 0

/-- Optional sign character at the front of a numeral. -/
def signSplit : List Char → Int × List Char
  | '-' :: cs => (-1, cs)
  | '+' :: cs => (1, cs)
  | cs => (1, cs)

/-- Exponent clause of a JavaScript float literal: e or E, an optional
sign and at least one digit; when no digit follows, the clause is not
consumed and the exponent is zero. -/
def expPart : List Char → Int
  | [] => 0
  | c :: cs =>
    if c == 'e' || c == 'E' then
      let sr := signSplit cs
      let ds := takeDigits sr.2
      if ds.1.isEmpty then 0 else sr.1 * digitsVal ds.1
    else 0

/-- Model of JavaScript parseFloat on a string: skip leading whitespace,
read an optional sign, integer digits, an optional fraction and an
optional exponent, stopping at the first character that does not fit;
none models NaN (no digits found at all). Infinity literals do not occur
in these report feeds and are not modelled. -/
def parseFloatS (s : String) : Option ℚ :=
  let cs := s.data.dropWhile (fun c => jsWhitespace c)
  let sr := signSplit cs
  let ip := takeDigits sr.2
  let fp : List Nat × List Char :=
    match ip.2 with
    | '.' :: rest => takeDigits rest
    | rest => ([], rest)
  if ip.1.isEmpty && fp.1.isEmpty then none
  else
    let mant : Int := sr.1 * ((digitsVal ip.1) * 10 ^ fp.1.length + digitsVal fp.1)
    let ex : Int := expPart fp.2
    some (Rat.divInt (mant * 10 ^ ex.toNat) ((10 : Int) ^ (fp.1.length + (-ex).toNat)))

/-- Model of JavaScript parseInt with no radix argument on these decimal
feeds: skip leading whitespace, read an optional sign and leading decimal
digits; none models NaN. Hexadecimal prefixes do not occur in these feeds
and are not modelled. -/
def parseIntS (s : String) : Option Int :=
  let cs := s.data.dropWhile (fun c => jsWhitespace c)
  let sr := signSplit cs
  let ds := takeDigits sr.2
  if ds.1.isEmpty then none else some (sr.1 * digitsVal ds.1)

/-- Model of JavaScript toLowerCase on the ASCII report vocabulary. -/
def toLowerS (s : String) : String := ⟨s.data.map Char.toLower⟩

/-- Model of JavaScript String.prototype.trim. -/
def jsTrim (s : String) : String :=
  ⟨((s.data.dropWhile (fun c => jsWhitespace c)).reverse.dropWhile
      (fun c => jsWhitespace c)).reverse⟩

/-- Whether the second list occurs at the head of the first. -/
def startsList : List Char → List Char → Bool
  | [], _ => true
  | _ :: _, [] => false
  | a :: as, b :: bs => a == b && startsList as bs

/-- Whether the first list occurs contiguously anywhere inside the second. -/
def occursList (small : List Char) : List Char → Bool
  | [] => small.isEmpty
  | c :: cs => startsList small (c :: cs) || occursList small cs

/-- Model of JavaScript String.prototype.includes. -/
def jsIncludes (s sub : String) : Bool := occursList sub.data s.data

/-- Split of a character list on every occurrence of a separator
character, keeping empty pieces, as JavaScript split with a one-character
string separator does. -/
def splitOnCharList (sep : Char) : List Char → List (List Char)
  | [] => [[]]
  | c :: cs =>
    let r := splitOnCharList sep cs
    if c == sep then [] :: r
    else
      match r with
      | [] => [[c]]
      | t :: ts => (c :: t) :: ts

/-- Model of JavaScript split on the literal newline separator. -/
def jsSplitLines (s : String) : List String :=
  (splitOnCharList '\n' s.data).map (fun cs => ⟨cs⟩)

/-- Worker for the whitespace-run split: cur is the current field and pend
the pending whitespace run, both held in reverse. -/
def splitWs2Aux : List Char → List Char → List Char → List String
  | [], cur, pend =>
    if 2 ≤ pend.length then [⟨cur.reverse⟩, ""] else [⟨(pend ++ cur).reverse⟩]
  | c :: cs, cur, pend =>
    if jsWhitespace c then splitWs2Aux cs cur (c :: pend)
    else if 2 ≤ pend.length then ⟨cur.reverse⟩ :: splitWs2Aux cs [c] []
    else splitWs2Aux cs (c :: (pend ++ cur)) []

/-- Model of JavaScript split on a run of two or more whitespace
characters: such a run ends the current field (a trailing run contributes
a final empty field), while a single whitespace character stays inside
its field. -/
def splitWs2 (s : String) : List String := splitWs2Aux s.data [] []

/-- Loosely typed JSON payload value as delivered by the upstream feeds. -/
inductive JValue where
  | null
  | str (s : String)
  | num (q : ℚ)
  | bool (b : Bool)
  | arr (xs : List JValue)
  | obj (fields : List (String × JValue))

/-- First binding of a key in a JSON object field list. -/
def lookupField : List (String × JValue) → String → Option JValue
  | [], _ => none
  | f :: fs, k => if f.1 == k then some f.2 else lookupField fs k

/-- Property access item.key on a payload value: an object yields the
bound value when the key is present, every other shape (and an absent
key) yields the JavaScript undefined, modelled as none. -/
def jfield : JValue → String → Option JValue
  | .obj fs, k => lookupField fs k
  | _, _ => none

/-- JavaScript truthiness of a payload value: null, the empty string and
the number zero are falsy, every other value is truthy. -/
def truthy : JValue → Bool
  | .null => false
  | .str s => !s.isEmpty
  | .num q => !(q == 0)
  | .bool b => b
  | .arr _ => true
  | .obj _ => true

/-- The field coalescer pattern item.k1 or item.k2 or lit: the first
candidate field whose value is present and truthy, else the trailing
literal default. -/
def coalesce (item : JValue) : List String → JValue → JValue
  | [], dflt => dflt
  | k :: ks, dflt =>
    match jfield item k with
    | some v => if truthy v then v else coalesce item ks dflt
    | none => coalesce item ks dflt

/-- The field coalescer pattern item.k1 or item.k2 or item.k3 with no
trailing literal: earlier candidates are taken when truthy, and the last
candidate's value is the result even when falsy (none only when the last
candidate is absent too). -/
def coalesceField (item : JValue) : List String → Option JValue
  | [] => none
  | [k] => jfield item k
  | k :: ks =>
    match jfield item k with
    | some v => if truthy v then some v else coalesceField item ks
    | none => coalesceField item ks

/-- String content of a payload value where the adapters apply string
methods to it; the report feeds carry these fields as strings, so other
shapes are mapped to the empty string. -/
def asJsString : JValue → String
  | .str s => s
  | _ => ""

/-- Model of parseFloat applied to a payload value: strings are parsed,
a numeric value passes through (parseFloat of its decimal rendering),
and the remaining shapes coerce to NaN on these feeds. -/
def jsParseFloatV : JValue → Option ℚ
  | .str s => parseFloatS s
  | .num q => some q
  | _ => none

/-- Model of parseInt applied to a payload value: strings are parsed and
a numeric value truncates toward zero, as parseInt of its decimal
rendering does; the remaining shapes coerce to NaN on these feeds. -/
def jsParseIntV : JValue → Option Int
  | .str s => parseIntS s
  | .num q => some (Int.tdiv q.num q.den)
  | _ => none

/-- The numeric-default pattern parseFloat(x) or d: NaN and zero fall
back to the default. -/
def jsNumOr (o : Option ℚ) (d : ℚ) : ℚ :=
  match o with
  | none => d
  | some q => if q == 0 then d else q

/-- The numeric-default pattern parseInt(x) or d: NaN and zero fall back
to the default. -/
def jsIntOr (o : Option Int) (d : Int) : Int :=
  match o with
  | none => d
  | some n => if n == 0 then d else n

/-- Result-container unwrap shared by the adapters: a bare array is used
as is, otherwise the list under the results key is looked up; anything
else (unavailable response, scalar, missing or non-array results) yields
no record list. -/
def unwrapResults : Option JValue → Option (List JValue)
  | none => none
  | some (.arr xs) => some xs
  | some d =>
    match jfield d "results" with
    | some (.arr xs) => some xs
    | _ => none

/-- The records[0]?.key or dflt pattern on the head record of a result
list. -/
def headCoalesce (records : List JValue) (keys : List String) (dflt : JValue) : JValue :=
  match records with
  | [] => dflt
  | r :: _ => coalesce r keys dflt

/-- The records[0]?.k1 or records[0]?.k2 pattern with no literal default. -/
def headCoalesceField (records : List JValue) (keys : List String) : Option JValue :=
  match records with
  | [] => none
  | r :: _ => coalesceField r keys

/-- Normalized trend vocabulary of the categorical trend mapper. -/
inductive Trend where
  | higher
  | lower
  | steady
deriving DecidableEq, Repr

/-- Normalized price-type vocabulary of the categorical price-type
mapper. -/
inductive PriceType where
  | negotiated
  | formula
  | forward
  | negotiated_grid
deriving DecidableEq, Repr

/-- Trend mapper of usda-market-news.ts: case-insensitive substring
checks tried in order, with none modelling the undefined result. -/
def mapTrend (trend : String) : Option Trend :=
  let lower := toLowerS trend
  if jsIncludes lower "higher" || jsIncludes lower "up" then some .higher
  else if jsIncludes lower "lower" || jsIncludes lower "down" then some .lower
  else if jsIncludes lower "steady" || jsIncludes lower "unchanged" then some .steady
  else none

/-- Price-type mapper of usda-market-news.ts: case-insensitive substring
checks tried in order, defaulting to negotiated. -/
def mapPriceType (t : String) : PriceType :=
  let lower := toLowerS t
  if jsIncludes lower "formula" then .formula
  else if jsIncludes lower "forward" then .forward
  else if jsIncludes lower "grid" then .negotiated_grid
  else .negotiated

/-- Price and weight range cell of the normalized records. -/
structure NumRange where
  low : ℚ
  high : ℚ

/-- Normalized CashPrice record of lib/types.ts; fields that the
adapters assign from raw payload values without numeric coercion are kept
as payload values. -/
structure CashPrice where
  reportDate : JValue
  priceType : PriceType
  region : JValue
  headCount : Int
  weightedAvgPrice : ℚ
  priceRange : NumRange
  avgWeight : ℚ
  dressedBasis : Option ℚ

/-- Normalized CashPriceReport record of lib/types.ts. -/
structure CashPriceReport where
  reportDate : JValue
  prices : List CashPrice

/-- Normalized AuctionSale record of lib/types.ts. -/
structure AuctionSale where
  reportDate : JValue
  marketLocation : JValue
  headCount : Int
  avgPrice : ℚ
  priceRange : NumRange
  weightRange : NumRange
  category : JValue
  grade : Option JValue
  trend : Option Trend

/-- Normalized AuctionReport record of lib/types.ts. -/
structure AuctionReport where
  reportDate : JValue
  reportTitle : JValue
  marketName : JValue
  totalHeadCount : Int
  sales : List AuctionSale
  commentary : Option JValue

/-- Normalized SlaughterData record of lib/types.ts. -/
structure SlaughterData where
  weekEnding : JValue
  cattleSlaughter : Int
  previousWeek : Int
  previousYear : Int
  percentChangeWeek : ℚ
  percentChangeYear : ℚ
  region : JValue

/-- SaleBarn catalog entry of lib/types.ts. -/
structure SaleBarn where
  slug : String
  name : String
  city : String
  state : String
  saleDay : String
  reportDay : String
deriving DecidableEq, Repr

/-- The numeric coalesce-and-parse step parseFloat(item.k1 or ... or "0")
or 0 used for every decimal field of the adapters. -/
def numField (item : JValue) (keys : List String) : ℚ :=
  jsNumOr (jsParseFloatV (coalesce item keys (.str "0"))) 0

/-- The integer coalesce-and-parse step parseInt(item.k1 or ... or "0")
or 0 used for every head-count field of the adapters. -/
def intField (item : JValue) (keys : List String) : Int :=
  jsIntOr (jsParseIntV (coalesce item keys (.str "0"))) 0

/-- Per-record transform of fetchNebraskaDirectSlaughter (LM_CT158) in
usda-market-news.ts. -/
def mkCashPriceNE (nowIso : String) (item : JValue) : CashPrice where
  reportDate := coalesce item ["report_date", "published_date"] (.str nowIso)
  priceType := mapPriceType (asJsString (coalesce item ["purchase_type", "price_type"] (.str "")))
  region := .str "Nebraska"
  headCount := intField item ["head_count", "total_head"]
  weightedAvgPrice := numField item ["wtd_avg", "wtd_avg_price", "weighted_average"]
  priceRange := { low := numField item ["price_low", "low_price"],
                  high := numField item ["price_high", "high_price"] }
  avgWeight := numField item ["avg_weight", "average_weight"]
  dressedBasis :=
    match jsParseFloatV (coalesce item ["dressed_basis"] (.str "0")) with
    | none => none
    | some q => if q == 0 then none else some q

/-- Adapter fetchNebraskaDirectSlaughter of usda-market-news.ts, as a
function of the already-delivered upstream response (none models a fetch
failure, a non-2xx status or a malformed JSON body); nowIso stands for
the current timestamp the code would substitute for missing dates. -/
def fetchNebraskaDirectSlaughter (nowIso : String) (data : Option JValue) :
    Option CashPriceReport :=
  match unwrapResults data with
  | none => none
  | some results =>
    if results.isEmpty then none
    else
      let prices := (results.take 50).map (mkCashPriceNE nowIso)
      let validPrices := prices.filter (fun p => decide (0 < p.weightedAvgPrice))
      some { reportDate := headCoalesce results ["report_date"] (.str nowIso),
             prices := validPrices }

/-- Per-record transform of fetch5AreaWeeklyPrices (LM_CT150) in
usda-market-news.ts. -/
def mkCashPrice5Area (nowIso : String) (item : JValue) : CashPrice where
  reportDate := coalesce item ["report_date"] (.str nowIso)
  priceType := mapPriceType (asJsString (coalesce item ["purchase_type", "price_type"] (.str "")))
  region := coalesce item ["region"] (.str "5-Area")
  headCount := intField item ["head_count"]
  weightedAvgPrice := numField item ["wtd_avg", "wtd_avg_price", "weighted_average"]
  priceRange := { low := numField item ["price_low"],
                  high := numField item ["price_high"] }
  avgWeight := numField item ["avg_weight"]
  dressedBasis := none

/-- Adapter fetch5AreaWeeklyPrices of usda-market-news.ts. -/
def fetch5AreaWeeklyPrices (nowIso : String) (data : Option JValue) :
    Option CashPriceReport :=
  match unwrapResults data with
  | none => none
  | some results =>
    if results.isEmpty then none
    else
      let prices := (results.take 50).map (mkCashPrice5Area nowIso)
      let validPrices := prices.filter (fun p => decide (0 < p.weightedAvgPrice))
      some { reportDate := headCoalesce results ["report_date"] (.str nowIso),
             prices := validPrices }

/-- The sale-barn catalog NEBRASKA_SALE_BARNS of lib/sale-barns.ts. -/
def NEBRASKA_SALE_BARNS : List SaleBarn :=
  [{ slug := "1860", name := "Nebraska Weekly Summary", city := "Statewide",
     state := "NE", saleDay := "Various", reportDay := "Friday" },
   { slug := "1836", name := "Bassett Livestock Auction", city := "Bassett",
     state := "NE", saleDay := "Wednesday", reportDay := "Wednesday" },
   { slug := "1851", name := "Burwell Livestock Market", city := "Burwell",
     state := "NE", saleDay := "Friday", reportDay := "Friday" },
   { slug := "1838", name := "Crawford Livestock Market", city := "Crawford",
     state := "NE", saleDay := "Friday", reportDay := "Friday" },
   { slug := "1852", name := "Ericson Livestock Market", city := "Ericson",
     state := "NE", saleDay := "Saturday", reportDay := "Saturday" },
   { slug := "1839", name := "Huss Livestock Market", city := "Kearney",
     state := "NE", saleDay := "Wednesday", reportDay := "Wednesday" },
   { slug := "1853", name := "Imperial Auction Market", city := "Imperial",
     state := "NE", saleDay := "Tuesday", reportDay := "Tuesday" },
   { slug := "1854", name := "Lexington Livestock Market", city := "Lexington",
     state := "NE", saleDay := "Friday", reportDay := "Friday" },
   { slug := "1850", name := "Ogallala Livestock Auction", city := "Ogallala",
     state := "NE", saleDay := "Thursday", reportDay := "Thursday" },
   { slug := "1855", name := "Sheridan Livestock Auction", city := "Rushville",
     state := "NE", saleDay := "Wednesday", reportDay := "Wednesday" },
   { slug := "1856", name := "Tri-State Livestock Auction", city := "McCook",
     state := "NE", saleDay := "Monday", reportDay := "Monday" },
   { slug := "1857", name := "Valentine Livestock Auction", city := "Valentine",
     state := "NE", saleDay := "Thursday", reportDay := "Thursday" }]

/-- Lookup getBarnBySlug of lib/sale-barns.ts. -/
def getBarnBySlug (slug : String) : Option SaleBarn :=
  NEBRASKA_SALE_BARNS.find? (fun b => b.slug == slug)

/-- Lookup getBarnsBySlugs of lib/sale-barns.ts; the argument is optional
because the JavaScript function also accepts an undefined array through
its falsiness check. -/
def getBarnsBySlugs (slugs : Option (List String)) : List SaleBarn :=
  match slugs with
  | none => NEBRASKA_SALE_BARNS
  | some l =>
    if l.isEmpty then NEBRASKA_SALE_BARNS
    else NEBRASKA_SALE_BARNS.filter (fun b => l.contains b.slug)

/-- Per-record transform of the current fetchNebraskaAuctions in
usda-market-news.ts; barnCity is the catalog fallback for the market
location. -/
def mkAuctionSale (nowIso : String) (barnCity : String) (item : JValue) : AuctionSale where
  reportDate := coalesce item ["report_date"] (.str nowIso)
  marketLocation := coalesce item ["market_location", "market", "city"] (.str barnCity)
  headCount := intField item ["head_count", "total_head"]
  avgPrice := numField item ["wtd_avg", "avg_price", "weighted_average"]
  priceRange := { low := numField item ["price_low", "low_price"],
                  high := numField item ["price_high", "high_price"] }
  weightRange := { low := numField item ["weight_low", "low_weight", "avg_weight"],
                   high := numField item ["weight_high", "high_weight", "avg_weight"] }
  category := coalesce item ["class", "commodity", "category"] (.str "Mixed")
  grade := coalesceField item ["grade", "quality_grade", "frame_size"]
  trend := mapTrend (asJsString (coalesce item ["price_trend", "trend"] (.str "")))

/-- The total-head reduction validSales.reduce((sum, s) => sum +
s.headCount, 0) of the auction adapters. -/
def sumHeadCounts (sales : List AuctionSale) : Int :=
  sales.foldl (fun a s => a + s.headCount) 0

/-- Per-market body of the current fetchNebraskaAuctions: unwrap the
market's response, map the first 100 records, keep positive-price sales
and build the report, or skip the market (none) when the response is
unavailable, empty or yields no valid sale. -/
def auctionReportFor (nowIso : String) (barn : SaleBarn) (data : Option JValue) :
    Option AuctionReport :=
  match unwrapResults data with
  | none => none
  | some records =>
    if records.isEmpty then none
    else
      let sales := (records.take 100).map (mkAuctionSale nowIso barn.city)
      let validSales := sales.filter (fun s => decide (0 < s.avgPrice))
      if validSales.isEmpty then none
      else
        some { reportDate := headCoalesce records ["report_date"] (.str nowIso),
               reportTitle := headCoalesce records ["report_title"] (.str barn.name),
               marketName := .str barn.name,
               totalHeadCount := sumHeadCounts validSales,
               sales := validSales,
               commentary := headCoalesceField records ["market_comments", "narrative"] }

/-- Adapter fetchNebraskaAuctions of usda-market-news.ts (current
variant, with the per-barn fan-out): responses maps a barn slug to that
market's upstream response; the barns are resolved through the catalog,
defaulting to the statewide summary, fetched independently, and each
failing or empty market is skipped without affecting the others. -/
def fetchNebraskaAuctions (nowIso : String) (slugs : Option (List String))
    (responses : String → Option JValue) : List AuctionReport :=
  let barns :=
    match slugs with
    | some l => if l.isEmpty then NEBRASKA_SALE_BARNS.take 1 else getBarnsBySlugs (some l)
    | none => NEBRASKA_SALE_BARNS.take 1
  barns.filterMap (fun barn => auctionReportFor nowIso barn (responses barn.slug))

/-- Per-record transform of the legacy fetchNebraskaAuctions variant kept
in the repository (the lm_ct758 and lm_ct712 version). -/
def mkAuctionSaleLegacy (nowIso : String) (item : JValue) : AuctionSale where
  reportDate := coalesce item ["report_date"] (.str nowIso)
  marketLocation := coalesce item ["market_location", "market"] (.str "Nebraska")
  headCount := intField item ["head_count", "total_head"]
  avgPrice := numField item ["avg_price", "weighted_average"]
  priceRange := { low := numField item ["price_low", "low"],
                  high := numField item ["price_high", "high"] }
  weightRange := { low := numField item ["weight_low", "low_weight"],
                   high := numField item ["weight_high", "high_weight"] }
  category := coalesce item ["class", "category"] (.str "Mixed")
  grade := coalesceField item ["grade", "quality_grade"]
  trend := mapTrend (asJsString (coalesce item ["price_trend", "trend"] (.str "")))

/-- Per-slug body of the legacy fetchNebraskaAuctions variant: it accepts
only a bare-array response, maps the first 50 records, and pushes a
report whose total head count is reduced over ALL mapped sales while the
sales field keeps only the positive-price ones. -/
def legacyAuctionReportFor (nowIso : String) (slugName : String) (data : Option JValue) :
    Option AuctionReport :=
  match data with
  | some (.arr records) =>
    if records.isEmpty then none
    else
      let sales := (records.take 50).map (mkAuctionSaleLegacy nowIso)
      some { reportDate := headCoalesce records ["report_date"] (.str nowIso),
             reportTitle := headCoalesce records ["report_title"] (.str slugName),
             marketName := headCoalesce records ["market_location"] (.str "Nebraska"),
             totalHeadCount := sumHeadCounts sales,
             sales := sales.filter (fun s => decide (0 < s.avgPrice)),
             commentary := headCoalesceField records ["market_comments"] }
  | _ => none

/-- Legacy fetchNebraskaAuctions variant kept in the repository: two
fixed report slugs fetched in order. -/
def fetchNebraskaAuctionsLegacy (nowIso : String) (responses : String → Option JValue) :
    List AuctionReport :=
  [("lm_ct758", "Nebraska Auction (lm_ct758)"), ("lm_ct712", "Nebraska Auction (lm_ct712)")].filterMap
    (fun sn => legacyAuctionReportFor nowIso sn.2 (responses sn.1))

/-- Per-record transform of fetchLMPRSlaughter (LM_CT100) in
usda-nass.ts. -/
def mkSlaughterLMPR (item : JValue) : SlaughterData :=
  let currentValue := intField item ["current_week_slaughter", "head_count", "total_head"]
  let prevWeek := jsIntOr (jsParseIntV (coalesce item ["previous_week_slaughter", "prev_week"] (.str "0"))) currentValue
  let prevYear := jsIntOr (jsParseIntV (coalesce item ["year_ago_slaughter", "prev_year"] (.str "0"))) currentValue
  { weekEnding := coalesce item ["week_ending", "report_date"] (.str ""),
    cattleSlaughter := currentValue,
    previousWeek := prevWeek,
    previousYear := prevYear,
    percentChangeWeek :=
      if 0 < prevWeek then (((currentValue : ℚ) - prevWeek) / prevWeek) * 100 else 0,
    percentChangeYear :=
      if 0 < prevYear then (((currentValue : ℚ) - prevYear) / prevYear) * 100 else 0,
    region := coalesce item ["region"] (.str "National") }

/-- Adapter fetchLMPRSlaughter of usda-nass.ts: every failure path (HTTP
error, thrown parse, missing or empty result list) yields the empty
list. -/
def fetchLMPRSlaughter (data : Option JValue) : List SlaughterData :=
  match unwrapResults data with
  | none => []
  | some l => if l.isEmpty then [] else (l.take 8).map mkSlaughterLMPR

/-- The non-null degraded-data status string the cash-price and auction
route aggregators attach to demo data. -/
def demoStatus : String := "Using demo data - live feed unavailable"

/-- Fallback aggregator of the cash-prices route handler, as a function
of the two adapter results (primary Nebraska-direct, secondary 5-area)
and of the static demo provider's record set: take the primary report
when it is present and non-empty, otherwise the secondary, and when both
are missing or empty return the demo set tagged with the degraded-data
status; a live result is returned with a null error. -/
def cashPricesGET (demo : CashPriceReport) (ne a5 : Option CashPriceReport) :
    CashPriceReport × Option String :=
  let priceReport :=
    match ne with
    | none => a5
    | some r => if r.prices.isEmpty then a5 else some r
  match priceReport with
  | none => (demo, some demoStatus)
  | some r => if r.prices.isEmpty then (demo, some demoStatus) else (r, none)

/-- Fallback aggregator of the auctions route handler, as a function of
the fan-out adapter's report list and of the static demo provider's
record set. -/
def auctionsGET (demo : List AuctionReport) (reports : List AuctionReport) :
    List AuctionReport × Option String :=
  if reports.isEmpty then (demo, some demoStatus) else (reports, none)

/-- Fallback aggregator of the slaughter route handler, as a function of
the two adapter results (primary LMPR, secondary NASS) and of the static
demo provider's record set: the route returns the demo set with a null
error when both adapters come back empty (its non-null status string is
attached only in the catch branch for a thrown exception). -/
def slaughterGET (demo : List SlaughterData) (lmpr nass : List SlaughterData) :
    List SlaughterData × Option String :=
  let slaughterData := if lmpr.isEmpty then nass else lmpr
  if slaughterData.isEmpty then (demo, none) else (slaughterData, none)

/-- Row of the plain-text report parsing in usda-market-news.ts. -/
structure TextRow where
  category : String
  headCount : Int
  price : ℚ
deriving DecidableEq, Repr

/-- Divider test of parseUSDATextReport: any line containing a run of
three dashes or three equals signs flips the scan into the data
section. -/
def isDivider (line : String) : Bool :=
  jsIncludes line "---" || jsIncludes line "==="

/-- Per-line step of parseUSDATextReport on the accumulated rows and the
in-data-section flag. -/
def parseStep (st : List TextRow × Bool) (line : String) : List TextRow × Bool :=
  if isDivider line then (st.1, true)
  else if st.2 && !(jsTrim line).isEmpty then
    let parts := splitWs2 line
    if 3 ≤ parts.length then
      (st.1 ++ [{ category := jsTrim (parts.getD 0 ""),
                  headCount := jsIntOr (parseIntS (parts.getD 1 "")) 0,
                  price := jsNumOr (parseFloatS (parts.getD 2 "")) 0 }], st.2)
    else (st.1, st.2)
  else (st.1, st.2)

/-- Plain-text report parsing parseUSDATextReport of
usda-market-news.ts. -/
def parseUSDATextReport (text : String) : List TextRow :=
  ((jsSplitLines text).foldl parseStep ([], false)).1

/-- Normalized FuturesContract record of lib/types.ts. -/
structure FuturesContract where
  symbol : String
  name : String
  contractMonth : String
  lastPrice : ℚ
  change : ℚ
  changePercent : ℚ
  openPrice : ℚ
  high : ℚ
  low : ℚ
  volume : Int
  lastUpdated : String

/-- Static mock contract list getMockLiveCattleData of lib/api/futures.ts
(nowIso stands for the timestamp the code inserts). -/
def getMockLiveCattleData (nowIso : String) : List FuturesContract :=
  let basePrice : ℚ := 185.5
  [{ symbol := "LEG25", name := "Live Cattle", contractMonth := "February 2025",
     lastPrice := basePrice, change := 0.825, changePercent := 0.45,
     openPrice := basePrice - 0.5, high := basePrice + 1.2, low := basePrice - 0.8,
     volume := 24532, lastUpdated := nowIso },
   { symbol := "LEJ25", name := "Live Cattle", contractMonth := "April 2025",
     lastPrice := basePrice + 1.25, change := 0.65, changePercent := 0.35,
     openPrice := basePrice + 0.75, high := basePrice + 2.0, low := basePrice + 0.5,
     volume := 18234, lastUpdated := nowIso },
   { symbol := "LEM25", name := "Live Cattle", contractMonth := "June 2025",
     lastPrice := basePrice + 2.1, change := 0.45, changePercent := 0.24,
     openPrice := basePrice + 1.5, high := basePrice + 2.8, low := basePrice + 1.3,
     volume := 12456, lastUpdated := nowIso },
   { symbol := "LEQ25", name := "Live Cattle", contractMonth := "August 2025",
     lastPrice := basePrice + 1.8, change := 0.35, changePercent := 0.19,
     openPrice := basePrice + 1.2, high := basePrice + 2.5, low := basePrice + 1.0,
     volume := 8234, lastUpdated := nowIso }]

/-- Adapter fetchLiveCattleFutures of lib/api/futures.ts, modelled on its
result selection: the contract list starts empty; with a front-month
quote the front contract and the synthesized deferred contracts (whose
seeded random spreads are abstracted into a parameter of the model) are
pushed; the adapter then returns the contract list when non-empty and
the static mock set otherwise — so an unavailable or malformed quote
response yields the mock set, not an empty list. -/
def fetchLiveCattleFutures (mock : List FuturesContract)
    (front : Option FuturesContract) (deferred : List FuturesContract) :
    List FuturesContract :=
  let contracts :=
    match front with
    | none => []
    | some f => f :: deferred
  if contracts.isEmpty then mock else contracts

/-- Empty placeholder barn used to name concrete catalog entries. -/
def blankBarn : SaleBarn where
  slug := ""
  name := ""
  city := ""
  state := ""
  saleDay := ""
  reportDay := ""

/-- Empty placeholder auction report used to name concrete adapter
outputs. -/
def blankAuctionReport : AuctionReport where
  reportDate := .null
  reportTitle := .null
  marketName := .null
  totalHeadCount := 0
  sales := []
  commentary := none

/-- Empty placeholder cash-price report used to name concrete adapter
outputs. -/
def blankCashPriceReport : CashPriceReport where
  reportDate := .null
  prices := []

/-- Empty placeholder cash-price record used to name concrete adapter
outputs. -/
def blankCashPrice : CashPrice where
  reportDate := .null
  priceType := .negotiated
  region := .null
  headCount := 0
  weightedAvgPrice := 0
  priceRange := { low := 0, high := 0 }
  avgWeight := 0
  dressedBasis := none

/-- The upstream record of the field-coalescer example: a price_low field
holding a comma-grouped decimal string. -/
def c2Item : JValue := .obj [("price_low", .str "1,234.50")]

/-- Upstream responses for the legacy auction adapter holding one
placeholder row (zero price, five hundred head) and one valid row. -/
def respC4 : String → Option JValue := fun s =>
  if s = "lm_ct758" then
    some (.arr [.obj [("head_count", .str "500"), ("avg_price", .str "0")],
                .obj [("head_count", .str "100"), ("avg_price", .str "200")]])
  else none

/-- Well-formed single-record auction payload used by the fan-out
scenario. -/
def auctionPayloadW : JValue :=
  .arr [.obj [("head_count", .str "100"), ("wtd_avg", .str "200")]]

/-- Fan-out responses where the Bassett and Crawford markets succeed and
the Burwell market's upstream call fails. -/
def respC8 : String → Option JValue := fun s =>
  if s = "1836" || s = "1838" then some auctionPayloadW else none

/-- Report the auction fan-out produces for the Bassett market on the
respC8 responses. -/
def r1W : AuctionReport :=
  (auctionReportFor "" (NEBRASKA_SALE_BARNS.getD 1 blankBarn) (respC8 "1836")).getD
    blankAuctionReport

/-- Report the auction fan-out produces for the Crawford market on the
respC8 responses. -/
def r3W : AuctionReport :=
  (auctionReportFor "" (NEBRASKA_SALE_BARNS.getD 3 blankBarn) (respC8 "1838")).getD
    blankAuctionReport

/-- Well-formed single-record cash-price payload. -/
def cashPayloadW : JValue :=
  .arr [.obj [("report_date", .str "2025-01-10"), ("head_count", .str "1200"),
              ("wtd_avg", .str "185.5")]]

/-- Report the Nebraska-direct adapter produces on cashPayloadW. -/
def cashReportW : CashPriceReport :=
  (fetchNebraskaDirectSlaughter "2025-01-10" (some cashPayloadW)).getD blankCashPriceReport

/-- The one cash-price record of cashReportW. -/
def cashPriceW : CashPrice := cashReportW.prices.getD 0 blankCashPrice

/-- Concrete valid cash-price record with the given weighted average
price. -/
def cpW (w : ℚ) : CashPrice where
  reportDate := .str "2025-01-10"
  priceType := .negotiated
  region := .str "Nebraska"
  headCount := 1000
  weightedAvgPrice := w
  priceRange := { low := 0, high := 0 }
  avgWeight := 0
  dressedBasis := none

/-- Secondary-adapter report of the fallback scenario, holding exactly
three valid records. -/
def threeReport : CashPriceReport where
  reportDate := .str "2025-01-10"
  prices := [cpW 186, cpW 187, cpW 188]

/-- Stand-in for the static demo cash-price record set of the route
handler. -/
def demoCashW : CashPriceReport where
  reportDate := .str "2025-01-03"
  prices := [cpW 180]

/-- Stand-in for the static demo slaughter record set of the route
handler. -/
def demoSlaughterW : List SlaughterData :=
  [{ weekEnding := .str "2025-01-04", cattleSlaughter := 625000,
     previousWeek := 630000, previousYear := 640000,
     percentChangeWeek := Rat.divInt (-500000) 630000,
     percentChangeYear := Rat.divInt (-1500000) 640000,
     region := .str "Nebraska" }]

/-- The reduce-with-add over head counts equals the sum of the projected
head counts, for any starting accumulator. -/
theorem foldl_headCounts (sales : List AuctionSale) (a : Int) :
    sales.foldl (fun x s => x + s.headCount) a = a + (sales.map AuctionSale.headCount).sum := by
  induction sales generalizing a with
  | nil => simp
  | cons x xs ih => simp [List.foldl_cons, ih, add_assoc]

/-- The total-head reduction of the auction adapters is the sum of the
head counts of the reduced sales. -/
theorem sumHeadCounts_eq (sales : List AuctionSale) :
    sumHeadCounts sales = (sales.map AuctionSale.headCount).sum := by
  simp [sumHeadCounts, foldl_headCounts]

/-- Any report the current per-market auction body produces totals the
head counts of its own sales and contains only positive-price sales. -/
theorem auctionReportFor_spec (nowIso : String) (barn : SaleBarn) (data : Option JValue)
    (rep : AuctionReport) (h : auctionReportFor nowIso barn data = some rep) :
    rep.totalHeadCount = (rep.sales.map AuctionSale.headCount).sum ∧
    ∀ s ∈ rep.sales, 0 < s.avgPrice := by
  unfold auctionReportFor at h
  split at h
  · exact absurd h (by simp)
  · split at h
    · exact absurd h (by simp)
    · dsimp only at h
      split at h
      · exact absurd h (by simp)
      · cases h
        constructor
        · exact sumHeadCounts_eq _
        · intro s hs
          exact of_decide_eq_true (List.mem_filter.mp hs).2

/-- Any report in the current auction fan-out's output comes from the
per-market body applied to that market's own response. -/
theorem mem_fetchNebraskaAuctions (nowIso : String) (slugs : Option (List String))
    (responses : String → Option JValue) (rep : AuctionReport)
    (h : rep ∈ fetchNebraskaAuctions nowIso slugs responses) :
    ∃ barn data, auctionReportFor nowIso barn data = some rep := by
  unfold fetchNebraskaAuctions at h
  obtain ⟨barn, hbarn, hsome⟩ := List.mem_filterMap.mp h
  exact ⟨barn, responses barn.slug, hsome⟩

/-- Any report the legacy per-slug auction body produces contains only
positive-price sales (its total, by contrast, is reduced before the
filter). -/
theorem legacyAuctionReportFor_pos (nowIso slugName : String) (data : Option JValue)
    (rep : AuctionReport) (h : legacyAuctionReportFor nowIso slugName data = some rep) :
    ∀ s ∈ rep.sales, 0 < s.avgPrice := by
  unfold legacyAuctionReportFor at h
  split at h
  · split at h
    · exact absurd h (by simp)
    · dsimp only at h
      cases h
      intro s hs
      exact of_decide_eq_true (List.mem_filter.mp hs).2
  · exact absurd h (by simp)

/-- Any report the Nebraska-direct cash adapter produces contains only
records with a positive weighted average price. -/
theorem fetchNebraskaDirectSlaughter_pos (nowIso : String) (data : Option JValue)
    (rep : CashPriceReport) (h : fetchNebraskaDirectSlaughter nowIso data = some rep) :
    ∀ p ∈ rep.prices, 0 < p.weightedAvgPrice := by
  unfold fetchNebraskaDirectSlaughter at h
  split at h
  · exact absurd h (by simp)
  · split at h
    · exact absurd h (by simp)
    · dsimp only at h
      cases h
      intro p hp
      exact of_decide_eq_true (List.mem_filter.mp hp).2

/-- Any report the 5-area cash adapter produces contains only records
with a positive weighted average price. -/
theorem fetch5AreaWeeklyPrices_pos (nowIso : String) (data : Option JValue)
    (rep : CashPriceReport) (h : fetch5AreaWeeklyPrices nowIso data = some rep) :
    ∀ p ∈ rep.prices, 0 < p.weightedAvgPrice := by
  unfold fetch5AreaWeeklyPrices at h
  split at h
  · exact absurd h (by simp)
  · split at h
    · exact absurd h (by simp)
    · dsimp only at h
      cases h
      intro p hp
      exact of_decide_eq_true (List.mem_filter.mp hp).2

/-- C1 (counterexample): for the slaughter domain aggregator, when both
adapters in the chain return empty results, the route returns the static
provider's record set together with a NULL error flag, not the non-null
fallback status string the claim requires. -/
theorem C1_counterexample :
    slaughterGET demoSlaughterW [] [] = (demoSlaughterW, none) ∧
    demoSlaughterW.length = 1 :=
  ⟨rfl, rfl⟩

/-- C1 (amended): when every adapter in a chain returns an empty or null
result, each aggregator returns the static provider's record set; the
cash-price and auction aggregators attach the non-null degraded-data
status string, while the slaughter aggregator returns the static set
with a null error flag (its non-null status appears only when an
exception is thrown). -/
theorem C1_thm :
    (∀ (demo : CashPriceReport) (ne a5 : Option CashPriceReport),
       (∀ x, ne = some x → x.prices = []) → (∀ x, a5 = some x → x.prices = []) →
       cashPricesGET demo ne a5 = (demo, some demoStatus))
  ∧ (∀ demo : List AuctionReport, auctionsGET demo [] = (demo, some demoStatus))
  ∧ (∀ (demo lmpr nass : List SlaughterData), lmpr = [] → nass = [] →
       slaughterGET demo lmpr nass = (demo, none)) := by
  refine ⟨?_, ?_, ?_⟩
  · intro demo ne a5 hne ha5
    cases ne with
    | none =>
      cases a5 with
      | none => rfl
      | some r => simp [cashPricesGET, ha5 r rfl]
    | some r =>
      have hr := hne r rfl
      cases a5 with
      | none => simp [cashPricesGET, hr]
      | some r2 => simp [cashPricesGET, hr, ha5 r2 rfl]
  · intro demo
    rfl
  · intro demo lmpr nass h1 h2
    subst h1
    subst h2
    rfl

/-- C1 (witness): concrete total-failure runs of the cash-price and
slaughter aggregators. -/
theorem C1_witness :
    cashPricesGET demoCashW none none = (demoCashW, some demoStatus) ∧
    slaughterGET demoSlaughterW [] [] = (demoSlaughterW, none) :=
  ⟨C1_thm.1 demoCashW none none (fun _ h => Option.noConfusion h)
     (fun _ h => Option.noConfusion h),
   C1_thm.2.2 demoSlaughterW [] [] rfl rfl⟩

/-- C2 (counterexample): on the record holding price_low = "1,234.50"
with the candidate list [priceLow, price_low], the numeric
coalesce-and-parse extraction of the cash adapters returns 1, not
1234.50: parseFloat stops at the comma instead of stripping it. -/
theorem C2_counterexample :
    numField c2Item ["priceLow", "price_low"] = 1 ∧
    (mkCashPriceNE "" c2Item).priceRange.low = 1 ∧
    (1 : ℚ) ≠ Rat.divInt 2469 2 :=
  ⟨by decide, by decide, by decide⟩

/-- C2 (amended): on the record holding price_low = "1,234.50" with the
candidate list [priceLow, price_low], the second candidate is selected
because the first is absent, but the parse stops at the comma thousands
separator, so the extraction returns 1; only the comma-free rendering of
the same numeral parses to 1234.50. -/
theorem C2_thm :
    coalesce c2Item ["priceLow", "price_low"] (JValue.str "0") = JValue.str "1,234.50" ∧
    numField c2Item ["priceLow", "price_low"] = 1 ∧
    parseFloatS "1234.50" = some (Rat.divInt 2469 2) ∧
    (Rat.divInt 2469 2 : ℚ) = 1234.50 := by
  refine ⟨rfl, by decide, by decide, ?_⟩
  rw [Rat.divInt_eq_div]
  norm_num

/-- C3 (counterexample): the trend mapper sends "UNCH" to the undefined
trend, not to steady: the lowercased text does not contain the full word
"unchanged". -/
theorem C3_counterexample :
    mapTrend "UNCH" = none ∧ mapTrend "UNCH" ≠ some Trend.steady :=
  ⟨by decide, by decide⟩

/-- C3 (amended): the trend mapper is total and case-insensitive
substring-based with its checks applied in order: text containing higher
or up maps to higher; otherwise text containing lower or down maps to
lower; otherwise text containing steady or unchanged maps to steady; any
other input maps to the undefined trend — in particular the empty
string, "N/A" and also "UNCH" map to the undefined trend. -/
theorem C3_thm :
    (∀ s, (jsIncludes (toLowerS s) "higher" || jsIncludes (toLowerS s) "up") = true →
       mapTrend s = some Trend.higher)
  ∧ (∀ s, (jsIncludes (toLowerS s) "higher" || jsIncludes (toLowerS s) "up") = false →
       (jsIncludes (toLowerS s) "lower" || jsIncludes (toLowerS s) "down") = true →
       mapTrend s = some Trend.lower)
  ∧ (∀ s, (jsIncludes (toLowerS s) "higher" || jsIncludes (toLowerS s) "up") = false →
       (jsIncludes (toLowerS s) "lower" || jsIncludes (toLowerS s) "down") = false →
       (jsIncludes (toLowerS s) "steady" || jsIncludes (toLowerS s) "unchanged") = true →
       mapTrend s = some Trend.steady)
  ∧ (∀ s, (jsIncludes (toLowerS s) "higher" || jsIncludes (toLowerS s) "up") = false →
       (jsIncludes (toLowerS s) "lower" || jsIncludes (toLowerS s) "down") = false →
       (jsIncludes (toLowerS s) "steady" || jsIncludes (toLowerS s) "unchanged") = false →
       mapTrend s = none)
  ∧ mapTrend "" = none ∧ mapTrend "N/A" = none ∧ mapTrend "UNCH" = none := by
  refine ⟨?_, ?_, ?_, ?_, by decide, by decide, by decide⟩
  · intro s h
    simp only [mapTrend, h, if_true]
  · intro s h1 h2
    simp only [mapTrend, h1, h2, Bool.false_eq_true, if_false, if_true]
  · intro s h1 h2 h3
    simp only [mapTrend, h1, h2, h3, Bool.false_eq_true, if_false, if_true]
  · intro s h1 h2 h3
    simp only [mapTrend, h1, h2, h3, Bool.false_eq_true, if_false]

/-- C3 (witness): concrete inputs exercising every branch of the trend
mapper. -/
theorem C3_witness :
    mapTrend "Sharply Higher" = some Trend.higher ∧
    mapTrend "5.00 lower" = some Trend.lower ∧
    mapTrend "mostly steady" = some Trend.steady ∧
    mapTrend "no comparable sales" = none :=
  ⟨C3_thm.1 _ (by decide),
   C3_thm.2.1 _ (by decide) (by decide),
   C3_thm.2.2.1 _ (by decide) (by decide) (by decide),
   C3_thm.2.2.2.1 _ (by decide) (by decide) (by decide)⟩

/-- C4 (counterexample): the legacy auction adapter kept in the
repository reduces the total head count over all mapped sales before the
positivity filter, so on a payload with a five-hundred-head placeholder
row of price zero and one valid hundred-head row, the produced report
carries total 600 while its retained sales sum to 100. -/
theorem C4_counterexample :
    ((fetchNebraskaAuctionsLegacy "" respC4).map
      (fun r => (r.totalHeadCount, (r.sales.map AuctionSale.headCount).sum))) = [(600, 100)] ∧
    (600 : Int) ≠ 100 :=
  ⟨by decide, by decide⟩

/-- C4 (amended): every report produced by the current auction fan-out
adapter totals exactly the head counts of the sales it contains; the
legacy variant instead reduces the total before discarding
non-positive-price rows, so its total can exceed the sum of the included
sales. -/
theorem C4_thm : ∀ (nowIso : String) (slugs : Option (List String))
    (responses : String → Option JValue) (rep : AuctionReport),
    rep ∈ fetchNebraskaAuctions nowIso slugs responses →
    rep.totalHeadCount = (rep.sales.map AuctionSale.headCount).sum := by
  intro nowIso slugs responses rep h
  obtain ⟨barn, data, hsome⟩ := mem_fetchNebraskaAuctions nowIso slugs responses rep h
  exact (auctionReportFor_spec nowIso barn data rep hsome).1

/-- C4 (witness): the concrete Bassett report of the fan-out run. -/
theorem C4_witness : r1W.totalHeadCount = (r1W.sales.map AuctionSale.headCount).sum :=
  C4_thm "" (some ["1836"]) respC8 r1W (List.Mem.head _)

/-- C5 (confirmed): every cash-price record included in a report
produced by a cash adapter has a positive weighted average price, and
every auction sale included in a report produced by an auction adapter
(current or legacy) has a positive average price; rows failing the
positivity check are discarded for every upstream payload. -/
theorem C5_thm :
    (∀ (nowIso : String) (data : Option JValue) (rep : CashPriceReport),
       fetchNebraskaDirectSlaughter nowIso data = some rep →
       ∀ p ∈ rep.prices, 0 < p.weightedAvgPrice)
  ∧ (∀ (nowIso : String) (data : Option JValue) (rep : CashPriceReport),
       fetch5AreaWeeklyPrices nowIso data = some rep →
       ∀ p ∈ rep.prices, 0 < p.weightedAvgPrice)
  ∧ (∀ (nowIso : String) (slugs : Option (List String))
       (responses : String → Option JValue) (rep : AuctionReport),
       rep ∈ fetchNebraskaAuctions nowIso slugs responses →
       ∀ s ∈ rep.sales, 0 < s.avgPrice)
  ∧ (∀ (nowIso : String) (responses : String → Option JValue) (rep : AuctionReport),
       rep ∈ fetchNebraskaAuctionsLegacy nowIso responses →
       ∀ s ∈ rep.sales, 0 < s.avgPrice) := by
  refine ⟨fetchNebraskaDirectSlaughter_pos, fetch5AreaWeeklyPrices_pos, ?_, ?_⟩
  · intro nowIso slugs responses rep h
    obtain ⟨barn, data, hsome⟩ := mem_fetchNebraskaAuctions nowIso slugs responses rep h
    exact (auctionReportFor_spec nowIso barn data rep hsome).2
  · intro nowIso responses rep h
    unfold fetchNebraskaAuctionsLegacy at h
    obtain ⟨sn, hsn, hsome⟩ := List.mem_filterMap.mp h
    exact legacyAuctionReportFor_pos nowIso sn.2 (responses sn.1) rep hsome

/-- C5 (witness): the concrete record produced by the Nebraska-direct
adapter on a one-record payload has a positive weighted average price. -/
theorem C5_witness : 0 < cashPriceW.weightedAvgPrice :=
  C5_thm.1 "2025-01-10" (some cashPayloadW) cashReportW rfl cashPriceW (List.Mem.head _)

/-- C6 (counterexample): the futures source adapter does not yield an
empty sequence on an unavailable or malformed quote response — it
substitutes its static four-contract mock list instead. -/
theorem C6_counterexample :
    fetchLiveCattleFutures (getMockLiveCattleData "") none [] = getMockLiveCattleData "" ∧
    (getMockLiveCattleData "").length = 4 :=
  ⟨rfl, rfl⟩

/-- C6 (amended): for the USDA market-news and NASS source adapters
(Nebraska-direct, 5-area, per-market auction body, auction fan-out,
LMPR slaughter), an upstream response of null, an empty object, an empty
array, or a malformed body (modelled, like every fetch failure, as no
delivered value) yields an empty normalized sequence or a null report,
and the adapters are total functions, so no exception reaches the
caller; the futures adapter is the exception to the empty-result shape:
with no front-month quote it returns its static mock contract list
rather than an empty list (still without throwing). -/
theorem C6_thm : ∀ (nowIso : String) (slugs : Option (List String)) (barn : SaleBarn)
    (mock deferred : List FuturesContract),
    (fetchNebraskaDirectSlaughter nowIso none = none
      ∧ fetchNebraskaDirectSlaughter nowIso (some JValue.null) = none
      ∧ fetchNebraskaDirectSlaughter nowIso (some (JValue.obj [])) = none
      ∧ fetchNebraskaDirectSlaughter nowIso (some (JValue.arr [])) = none)
  ∧ (fetch5AreaWeeklyPrices nowIso none = none
      ∧ fetch5AreaWeeklyPrices nowIso (some JValue.null) = none
      ∧ fetch5AreaWeeklyPrices nowIso (some (JValue.obj [])) = none
      ∧ fetch5AreaWeeklyPrices nowIso (some (JValue.arr [])) = none)
  ∧ (fetchLMPRSlaughter none = []
      ∧ fetchLMPRSlaughter (some JValue.null) = []
      ∧ fetchLMPRSlaughter (some (JValue.obj [])) = []
      ∧ fetchLMPRSlaughter (some (JValue.arr [])) = [])
  ∧ (auctionReportFor nowIso barn none = none
      ∧ auctionReportFor nowIso barn (some JValue.null) = none
      ∧ auctionReportFor nowIso barn (some (JValue.obj [])) = none
      ∧ auctionReportFor nowIso barn (some (JValue.arr [])) = none)
  ∧ fetchNebraskaAuctions nowIso slugs (fun _ => none) = []
  ∧ fetchLiveCattleFutures mock none deferred = mock := by
  intro nowIso slugs barn mock deferred
  refine ⟨⟨rfl, rfl, rfl, rfl⟩, ⟨rfl, rfl, rfl, rfl⟩, ⟨rfl, rfl, rfl, rfl⟩,
    ⟨rfl, rfl, rfl, rfl⟩, ?_, rfl⟩
  exact List.filterMap_eq_nil_iff.mpr (fun _ _ => rfl)

/-- C7 (confirmed): when the primary cash adapter comes back empty or
null and the secondary returns a report with three valid records, the
cash-price aggregator returns exactly those records as live data with a
null error flag; moreover a non-empty primary result determines the
outcome regardless of the secondary result, which is the extensional
content of the strict priority order with short-circuiting. -/
theorem C7_thm :
    (∀ (demo : CashPriceReport) (ne a5 : Option CashPriceReport) (r : CashPriceReport),
       (∀ x, ne = some x → x.prices = []) → a5 = some r → r.prices.length = 3 →
       (∀ p ∈ r.prices, 0 < p.weightedAvgPrice) →
       cashPricesGET demo ne a5 = (r, none))
  ∧ (∀ (demo r : CashPriceReport) (a5 a5' : Option CashPriceReport), r.prices ≠ [] →
       cashPricesGET demo (some r) a5 = (r, none) ∧
       cashPricesGET demo (some r) a5 = cashPricesGET demo (some r) a5') := by
  constructor
  · intro demo ne a5 r hne ha hlen _
    have hr : r.prices.isEmpty = false := by
      cases hp : r.prices with
      | nil => rw [hp] at hlen; simp at hlen
      | cons x xs => simp
    subst ha
    cases ne with
    | none => simp [cashPricesGET, hr]
    | some r0 => simp [cashPricesGET, hne r0 rfl, hr]
  · intro demo r a5 a5' hr
    have hre : r.prices.isEmpty = false := by
      cases hp : r.prices with
      | nil => exact absurd hp hr
      | cons x xs => simp
    exact ⟨by simp [cashPricesGET, hre], by simp [cashPricesGET, hre]⟩

/-- C7 (witness): a concrete run with an absent primary result and a
three-record secondary report, plus a concrete short-circuit run. -/
theorem C7_witness :
    cashPricesGET demoCashW none (some threeReport) = (threeReport, none) ∧
    cashPricesGET demoCashW (some threeReport) none = (threeReport, none) ∧
    cashPricesGET demoCashW (some threeReport) none =
      cashPricesGET demoCashW (some threeReport) (some demoCashW) :=
  ⟨C7_thm.1 demoCashW none (some threeReport) threeReport
     (fun _ h => Option.noConfusion h) rfl rfl (by decide),
   (C7_thm.2 demoCashW threeReport none (some demoCashW)
     (List.cons_ne_nil _ _)).1,
   (C7_thm.2 demoCashW threeReport none (some demoCashW)
     (List.cons_ne_nil _ _)).2⟩

/-- C8 (confirmed): in the auction fan-out, when the catalog resolves
the requested slugs to three markets and the middle market's upstream
call fails or yields no report while the other two succeed, the adapter
returns exactly the two succeeding markets' reports in order and omits
the failing one. -/
theorem C8_thm : ∀ (nowIso : String) (slugs : List String)
    (responses : String → Option JValue) (b1 b2 b3 : SaleBarn) (r1 r3 : AuctionReport),
    slugs ≠ [] →
    getBarnsBySlugs (some slugs) = [b1, b2, b3] →
    auctionReportFor nowIso b1 (responses b1.slug) = some r1 →
    auctionReportFor nowIso b2 (responses b2.slug) = none →
    auctionReportFor nowIso b3 (responses b3.slug) = some r3 →
    fetchNebraskaAuctions nowIso (some slugs) responses = [r1, r3] := by
  intro nowIso slugs responses b1 b2 b3 r1 r3 hne hb h1 h2 h3
  have hl : slugs.isEmpty = false := by
    cases slugs with
    | nil => exact absurd rfl hne
    | cons x xs => simp
  unfold fetchNebraskaAuctions
  simp only [hl, Bool.false_eq_true, if_false, hb]
  simp only [List.filterMap_cons, h1, h2, h3, List.filterMap_nil]

/-- C8 (witness): three concrete requested markets where the Burwell
upstream call fails; the Bassett and Crawford reports are returned. -/
theorem C8_witness :
    fetchNebraskaAuctions "" (some ["1836", "1851", "1838"]) respC8 = [r1W, r3W] :=
  C8_thm "" ["1836", "1851", "1838"] respC8
    (NEBRASKA_SALE_BARNS.getD 1 blankBarn) (NEBRASKA_SALE_BARNS.getD 2 blankBarn)
    (NEBRASKA_SALE_BARNS.getD 3 blankBarn) r1W r3W
    (by decide) (by decide) rfl rfl rfl

/-- C9 (confirmed): in the text report parsing, lines scanned before the
first divider produce no rows (the scan is not yet in the data section),
a data-section line yielding fewer than three columns is skipped, and on
the two-row example input only the post-divider Heifers row is produced,
with its head count read as the integer 95 and its price as the decimal
172.25. -/
theorem C9_thm :
    (∀ (lines : List String) (acc : List TextRow),
       (∀ l ∈ lines, isDivider l = false) →
       lines.foldl parseStep (acc, false) = (acc, false))
  ∧ (∀ (acc : List TextRow) (line : String), isDivider line = false →
       (splitWs2 line).length < 3 → parseStep (acc, true) line = (acc, true))
  ∧ parseUSDATextReport "Steers  120  185.50\n---\nHeifers  95  172.25" =
      [{ category := "Heifers", headCount := 95, price := Rat.divInt 689 4 }]
  ∧ (Rat.divInt 689 4 : ℚ) = 172.25 := by
  refine ⟨?_, ?_, by decide, ?_⟩
  · intro lines acc h
    induction lines with
    | nil => rfl
    | cons l ls ih =>
      have hl : parseStep (acc, false) l = (acc, false) := by
        simp [parseStep, h l (by simp)]
      rw [List.foldl_cons, hl]
      exact ih (fun x hx => h x (by simp [hx]))
  · intro acc line h1 h2
    have h3 : ¬ (3 ≤ (splitWs2 line).length) := by omega
    by_cases hb : (jsTrim line).isEmpty
    · simp [parseStep, h1, hb]
    · simp [parseStep, h1, hb, h3]
  · rw [Rat.divInt_eq_div]
    norm_num

/-- C9 (witness): a concrete pre-divider line produces no row, and a
concrete two-column data-section line is skipped. -/
theorem C9_witness :
    ["Steers  120  185.50"].foldl parseStep ([], false) = ([], false) ∧
    parseStep ([], true) "two  columns" = ([], true) :=
  ⟨C9_thm.1 ["Steers  120  185.50"] [] (by decide),
   C9_thm.2.1 [] "two  columns" (by decide) (by decide)⟩

/-- C10 (confirmed): getBarnsBySlugs returns the whole catalog on a
missing or empty slug list; on a non-empty list it returns, in catalog
order (a sublist of the catalog), exactly the catalog entries whose slug
occurs in the list, silently dropping slugs matching no entry. -/
theorem C10_thm :
    getBarnsBySlugs none = NEBRASKA_SALE_BARNS
  ∧ getBarnsBySlugs (some []) = NEBRASKA_SALE_BARNS
  ∧ (∀ slugs, (getBarnsBySlugs slugs).Sublist NEBRASKA_SALE_BARNS)
  ∧ (∀ (slugs : List String) (b : SaleBarn), slugs ≠ [] →
      (b ∈ getBarnsBySlugs (some slugs) ↔ b ∈ NEBRASKA_SALE_BARNS ∧ b.slug ∈ slugs)) := by
  refine ⟨rfl, rfl, ?_, ?_⟩
  · intro o
    cases o with
    | none => exact List.Sublist.refl _
    | some l =>
      unfold getBarnsBySlugs
      by_cases hl : l.isEmpty
      · simp [hl]
      · simp only [hl, Bool.false_eq_true, if_false]
        exact List.filter_sublist _
  · intro slugs b h
    have hl : slugs.isEmpty = false := by
      cases slugs with
      | nil => exact absurd rfl h
      | cons x xs => simp
    simp [getBarnsBySlugs, hl, List.mem_filter, List.elem_iff]

/-- C10 (witness): the Ogallala entry is selected by a list holding its
slug together with a slug matching no catalog entry. -/
theorem C10_witness :
    NEBRASKA_SALE_BARNS.getD 8 blankBarn ∈ getBarnsBySlugs (some ["1850", "9999"]) :=
  (C10_thm.2.2.2 ["1850", "9999"] (NEBRASKA_SALE_BARNS.getD 8 blankBarn)
    (by decide)).mpr ⟨by decide, by decide⟩
